import Mathlib

/-!
Verification of the subtitle timing and rendering engine of the
Music_news_airi repository (src/src/subtitle_generator.py).

The Python code is shallowly embedded: floating-point seconds become exact
rationals, file writes become the produced document string.
The four components modelled here are SubtitleGenerator._split_lyrics,
SubtitleGenerator._assign_timings, SubtitleGenerator._write_srt together
with _format_time, and SubtitleGenerator._write_ass together with
_format_time_ass.
-/

/-- Per-line raw display duration, from _assign_timings lines 106-109:
max(2.0, len(line) / chars_per_second). -/
def lineDuration (chars_per_second : ℚ) (line : String) : ℚ :=
  max 2 ((line.length : ℚ) / chars_per_second)

/-- The allocation walk of _assign_timings (lines 119-137): each line gets
[current_time, current_time + raw*scale), clamped to the total duration;
after appending a cue the walk stops as soon as current_time >= duration. -/
def assignLoop (duration scale_factor : ℚ) :
    ℚ → List (String × ℚ) → List (ℚ × ℚ × String)
  | _, [] => []
  | current_time, (line, line_duration) :: rest =>
    let start_time := current_time
    let scaled_duration := line_duration * scale_factor
    let end_time0 := start_time + scaled_duration
    let end_time := if end_time0 > duration then duration else end_time0
    (start_time, end_time, line) ::
      (if end_time ≥ duration then [] else assignLoop duration scale_factor end_time rest)

/-- SubtitleGenerator._assign_timings (lines 82-137): raw durations from
character counts, proportional scale duration/raw_total (1.0 if the raw
total is not positive), then the allocation walk from time 0. -/
def assign_timings (lines : List String) (duration chars_per_second : ℚ) :
    List (ℚ × ℚ × String) :=
  if lines.isEmpty then []
  else
    let line_durations := lines.map (lineDuration chars_per_second)
    let total_calculated_duration := line_durations.sum
    let scale_factor :=
      if total_calculated_duration > 0 then duration / total_calculated_duration else 1
    assignLoop duration scale_factor 0 (lines.zip line_durations)

/-- Reference walk with neither clamping nor early stopping: cue i covers
[c, c + d_i * scale) where c is the accumulated end time.  Proved equal to
assignLoop whenever the scaled durations sum exactly to the remaining time. -/
def idealLoop (scale_factor : ℚ) : ℚ → List (String × ℚ) → List (ℚ × ℚ × String)
  | _, [] => []
  | current, (line, d) :: rest =>
    (current, current + d * scale_factor, line) ::
      idealLoop scale_factor (current + d * scale_factor) rest

/-- The cue list is gapless and overlap-free starting at time t: the first
cue starts at t and every later cue starts where its predecessor ends. -/
def contiguousFrom (t : ℚ) : List (ℚ × ℚ × String) → Prop
  | [] => True
  | c :: rest => c.1 = t ∧ contiguousFrom c.2.1 rest

/-- Python str.strip(): remove leading and trailing whitespace. -/
def strip (s : String) : String :=
  String.mk (((s.data.dropWhile Char.isWhitespace).reverse.dropWhile
    Char.isWhitespace).reverse)

/-- The regexp test of _split_lyrics line 78, an anchored match of a fully
bracketed line, applied to already-stripped, newline-free lines: the line
starts with an opening bracket and ends with a closing bracket (a lone
bracket fails, since a one-character line cannot do both). -/
def isSectionMarker (l : String) : Bool :=
  match l.data with
  | [] => false
  | c :: rest =>
    c == '[' && (match rest.getLast? with
                 | some d => d == ']'
                 | none => false)

/-- SubtitleGenerator._split_lyrics (lines 61-80): split on newlines, keep
lines that are non-empty after stripping (stripped), then drop section
markers. -/
def split_lyrics (lyrics : String) : List String :=
  ((((lyrics.data.splitOn '\n').map String.mk).filter
      (fun l => !(strip l == ""))).map strip).filter
    (fun l => !(isSectionMarker l))

/-- The segmenter as the specification words it: split on line breaks, drop
lines empty after trimming and lines whose trimmed form is exactly a
bracketed marker, and return the surviving lines trimmed, in order. -/
def segment_spec (lyrics : String) : List String :=
  (((lyrics.data.splitOn '\n').map String.mk).filter
      (fun l => !(strip l == "") && !(isSectionMarker (strip l)))).map strip

/-- Python's float modulo for a positive modulus: a % b = a - b*floor(a/b),
the representative in [0, b). -/
def pymod (a b : ℚ) : ℚ := a - b * ⌊a / b⌋

/-- Python's int() on a float: truncation toward zero. -/
def pytrunc (q : ℚ) : ℤ := if q < 0 then ⌈q⌉ else ⌊q⌋

/-- Left zero-padding of a natural number to a given width. -/
def zfillNat (w : Nat) (n : Nat) : String :=
  let s := toString n
  if s.length < w then String.mk (List.replicate (w - s.length) '0') ++ s else s

/-- Python format spec 0wd on an integer: zero-pad to total width w, a sign
counting toward the width. -/
def zfill (w : Nat) (n : Int) : String :=
  if n < 0 then "-" ++ zfillNat (w - 1) n.natAbs else zfillNat w n.natAbs

/-- SubtitleGenerator._format_time (lines 164-179):
hours = int(s // 3600), minutes = int((s % 3600) // 60), secs = int(s % 60),
millis = int((s % 1) * 1000), rendered as HH:MM:SS,mmm.  (Every int()
argument is either an integer already or nonnegative, so int() is floor.) -/
def format_time (seconds : ℚ) : String :=
  zfill 2 ⌊seconds / 3600⌋ ++ ":" ++ zfill 2 ⌊pymod seconds 3600 / 60⌋ ++ ":" ++
    zfill 2 ⌊pymod seconds 60⌋ ++ "," ++ zfill 3 ⌊pymod seconds 1 * 1000⌋

/-- The sequential timestamp as the specification words it: hours, minutes
and seconds are the floor components of the total second count, and mmm the
3-digit zero-padded millisecond remainder. -/
def format_time_spec (seconds : ℚ) : String :=
  zfill 2 ⌊seconds / 3600⌋ ++ ":" ++ zfill 2 (⌊seconds / 60⌋ % 60) ++ ":" ++
    zfill 2 (⌊seconds⌋ % 60) ++ "," ++ zfill 3 (⌊seconds * 1000⌋ % 1000)

/-- SubtitleGenerator._format_time_ass (lines 181-196): as format_time but
with the hour unpadded and a 2-digit centisecond remainder, H:MM:SS.cc. -/
def format_time_ass (seconds : ℚ) : String :=
  toString ⌊seconds / 3600⌋ ++ ":" ++ zfill 2 ⌊pymod seconds 3600 / 60⌋ ++ ":" ++
    zfill 2 ⌊pymod seconds 60⌋ ++ "." ++ zfill 2 ⌊pymod seconds 1 * 100⌋

/-- The styled timestamp as the specification words it. -/
def format_time_ass_spec (seconds : ℚ) : String :=
  toString ⌊seconds / 3600⌋ ++ ":" ++ zfill 2 (⌊seconds / 60⌋ % 60) ++ ":" ++
    zfill 2 (⌊seconds⌋ % 60) ++ "." ++ zfill 2 (⌊seconds * 100⌋ % 100)

/-- SubtitleGenerator._write_srt (lines 139-162): for each cue, 1-indexed,
a four-line record: index, start --> end, text, blank separator. -/
def write_srt (subtitle_entries : List (ℚ × ℚ × String)) : String :=
  String.join ((subtitle_entries.enumFrom 1).map (fun e =>
    toString e.1 ++ "\n" ++
      format_time e.2.1 ++ " --> " ++ format_time e.2.2.1 ++ "\n" ++
      e.2.2.2 ++ "\n" ++ "\n"))

/-- Digits of the fractional part of a nonnegative rational below 1,
greedily, stopping when the remainder is zero (fuel-bounded). -/
def fracDigits : Nat → ℚ → String
  | 0, _ => ""
  | fuel + 1, q =>
    if q = 0 then ""
    else toString ⌊q * 10⌋ ++ fracDigits fuel (q * 10 - ⌊q * 10⌋)

/-- Python str() of a float holding the given rational value, for the
short-decimal values used in the style row: str(3.0) renders as 3.0 and
str(2.5) as 2.5, integer part, dot, then fractional digits. -/
def pyFloatStr (q : ℚ) : String :=
  (if q < 0 then "-" else "") ++ toString ⌊|q|⌋ ++ "." ++
    (if |q| - ⌊|q|⌋ = 0 then "0" else fracDigits 17 (|q| - ⌊|q|⌋))

/-- _write_ass lines 298-305: the fixed [Script Info] block, blank line
included. -/
def ass_script_info : String :=
  "[Script Info]\nTitle: Music News AI Subtitles\nScriptType: v4.00+\nCollisions: Normal\nPlayDepth: 0\nTimer: 100.0000\nWrapStyle: 0\n\n"

/-- _write_ass lines 308-312: the style-section header and its Format
column-declaration line. -/
def ass_style_format : String :=
  "[V4+ Styles]\nFormat: Name, Fontname, Fontsize, PrimaryColour, SecondaryColour, OutlineColour, BackColour, Bold, Italic, Underline, StrikeOut, ScaleX, ScaleY, Spacing, Angle, BorderStyle, Outline, Shadow, Alignment, MarginL, MarginR, MarginV, Encoding\n"

/-- _write_ass lines 314-318: the single Default style row; bold encodes
as -1 when set and 0 when not. -/
def style_row (font_name : String) (font_size : ℤ)
    (primary_color secondary_color outline_color back_color : String)
    (outline shadow : ℚ) (bold : Bool) (alignment margin_v : ℤ) : String :=
  let bold_val : ℤ := if bold then -1 else 0
  "Style: Default," ++ font_name ++ "," ++ toString font_size ++ "," ++
    primary_color ++ "," ++ secondary_color ++ "," ++ outline_color ++ "," ++
    back_color ++ "," ++ toString bold_val ++ ",0,0,0,100,100,0,0,1," ++
    pyFloatStr outline ++ "," ++ pyFloatStr shadow ++ "," ++
    toString alignment ++ ",20,20," ++ toString margin_v ++ ",1\n"

/-- _write_ass lines 322-323: the events-section header and its Format
column-declaration line. -/
def ass_events_header : String :=
  "[Events]\nFormat: Layer, Start, End, Style, Name, MarginL, MarginR, MarginV, Effect, Text\n"

/-- _write_ass lines 325-334: one Dialogue row per cue; the text payload is
prefixed, with no separator, by a fade directive carrying the fade-in and
fade-out times in integer (truncated) milliseconds. -/
def dialogue_line (fade_in fade_out : ℚ) (cue : ℚ × ℚ × String) : String :=
  let start_str := format_time_ass cue.1
  let end_str := format_time_ass cue.2.1
  let fade_in_ms := pytrunc (fade_in * 1000)
  let fade_out_ms := pytrunc (fade_out * 1000)
  let effect_text := "\x7b\\fad(" ++ toString fade_in_ms ++ "," ++
    toString fade_out_ms ++ ")\x7d" ++ cue.2.2
  "Dialogue: 0," ++ start_str ++ "," ++ end_str ++ ",Default,,0,0,0,," ++
    effect_text ++ "\n"

/-- SubtitleGenerator._write_ass (lines 272-334): script info, style table,
events header, then one Dialogue row per cue. -/
def write_ass (subtitle_entries : List (ℚ × ℚ × String)) (font_name : String)
    (font_size : ℤ) (primary_color secondary_color outline_color back_color : String)
    (outline shadow : ℚ) (bold : Bool) (alignment margin_v : ℤ)
    (fade_in fade_out : ℚ) : String :=
  ass_script_info ++ ass_style_format ++
    style_row font_name font_size primary_color secondary_color outline_color
      back_color outline shadow bold alignment margin_v ++ "\n" ++
    ass_events_header ++
    String.join (subtitle_entries.map (dialogue_line fade_in fade_out))

/-- Ten one-character lines: each has raw duration max 2 (1/cps) = 2, so the
ten lines need 20 seconds of raw time. -/
def tenShortLines : List String := List.replicate 10 "a"

/-- Each raw line duration is strictly positive (it is at least the 2-second
floor). -/
theorem lineDuration_pos (cps : ℚ) (l : String) : 0 < lineDuration cps l :=
  lt_of_lt_of_le two_pos (le_max_left _ _)

/-- Zipping a list with its own image under f pairs each element with its
image. -/
theorem zip_self_map (f : String → ℚ) :
    ∀ l : List String, l.zip (l.map f) = l.map (fun a => (a, f a)) := by
  intro l
  induction l with
  | nil => rfl
  | cons x xs ih => simp [ih]

/-- When the scaled durations of the remaining lines sum exactly to the time
left, the clamped, early-stopping walk agrees with the reference walk: no cue
is ever clamped and no line is dropped before the list ends. -/
theorem assignLoop_eq_idealLoop (duration scale : ℚ) (hs : 0 < scale) :
    ∀ (pairs : List (String × ℚ)) (current : ℚ),
      (∀ p ∈ pairs, 0 < p.2) →
      current + (pairs.map Prod.snd).sum * scale = duration →
      assignLoop duration scale current pairs = idealLoop scale current pairs := by
  intro pairs
  induction pairs with
  | nil => intro current _ _; rfl
  | cons p rest ih =>
    obtain ⟨line, d⟩ := p
    intro current hpos hsum
    simp only [List.map_cons, List.sum_cons] at hsum
    have hd : 0 < d := hpos (line, d) (List.mem_cons_self _ _)
    have hrest : 0 ≤ (rest.map Prod.snd).sum := by
      apply List.sum_nonneg
      intro x hx
      obtain ⟨q, hq, rfl⟩ := List.mem_map.mp hx
      exact (hpos q (List.mem_cons_of_mem _ hq)).le
    have hend_le : current + d * scale ≤ duration := by
      nlinarith [mul_nonneg hrest hs.le]
    cases rest with
    | nil =>
      simp only [List.map_nil, List.sum_nil, add_zero] at hsum
      simp [assignLoop, idealLoop, hsum]
    | cons q rs =>
      have hq : 0 < q.2 := hpos q (List.mem_cons_of_mem _ (List.mem_cons_self _ _))
      have hrs : 0 ≤ (rs.map Prod.snd).sum := by
        apply List.sum_nonneg
        intro x hx
        obtain ⟨r, hr, rfl⟩ := List.mem_map.mp hx
        exact (hpos r (by simp [hr])).le
      have hsum_pos : 0 < ((q :: rs).map Prod.snd).sum := by
        simp only [List.map_cons, List.sum_cons]
        linarith
      have hend_lt : current + d * scale < duration := by
        nlinarith [mul_pos hsum_pos hs]
      have hrec := ih (current + d * scale)
        (fun r hr => hpos r (List.mem_cons_of_mem _ hr)) (by linear_combination hsum)
      simp only [assignLoop, idealLoop]
      rw [if_neg (by linarith : ¬ (current + d * scale > duration)),
        if_neg (by linarith : ¬ (current + d * scale ≥ duration))]
      exact congrArg _ hrec

/-- The reference walk emits one cue per line. -/
theorem idealLoop_length (scale : ℚ) :
    ∀ (pairs : List (String × ℚ)) (current : ℚ),
      (idealLoop scale current pairs).length = pairs.length := by
  intro pairs
  induction pairs with
  | nil => intro current; rfl
  | cons p rest ih => intro current; obtain ⟨l, d⟩ := p; simp [idealLoop, ih]

/-- The reference walk is contiguous from its starting time. -/
theorem idealLoop_contiguousFrom (scale : ℚ) :
    ∀ (pairs : List (String × ℚ)) (current : ℚ),
      contiguousFrom current (idealLoop scale current pairs) := by
  intro pairs
  induction pairs with
  | nil => intro current; trivial
  | cons p rest ih =>
    intro current
    obtain ⟨l, d⟩ := p
    exact ⟨rfl, ih _⟩

/-- The last cue of the reference walk ends at start + (sum of raw
durations) * scale. -/
theorem idealLoop_getLast (scale : ℚ) :
    ∀ (pairs : List (String × ℚ)) (current : ℚ), pairs ≠ [] →
      ((idealLoop scale current pairs).getLast?).map (fun c => c.2.1) =
        some (current + (pairs.map Prod.snd).sum * scale) := by
  intro pairs
  induction pairs with
  | nil => intro current h; exact absurd rfl h
  | cons p rest ih =>
    intro current _
    obtain ⟨l, d⟩ := p
    cases rest with
    | nil => simp [idealLoop]
    | cons q rs =>
      have hne : (q :: rs : List (String × ℚ)) ≠ [] := by simp
      have key := ih (current + d * scale) hne
      simp only [idealLoop] at key ⊢
      rw [List.getLast?_cons_cons, key]
      simp only [List.map_cons, List.sum_cons]
      congr 1
      ring

/-- Every cue of the reference walk starts no earlier than the walk's start,
ends strictly after it starts, and ends by start + (sum) * scale. -/
theorem idealLoop_mem (scale : ℚ) (hs : 0 < scale) :
    ∀ (pairs : List (String × ℚ)) (current : ℚ),
      (∀ p ∈ pairs, 0 < p.2) →
      ∀ c ∈ idealLoop scale current pairs,
        current ≤ c.1 ∧ c.1 < c.2.1 ∧
          c.2.1 ≤ current + (pairs.map Prod.snd).sum * scale := by
  intro pairs
  induction pairs with
  | nil => intro current _ c hc; cases hc
  | cons p rest ih =>
    intro current hpos c hc
    obtain ⟨l, d⟩ := p
    have hd : 0 < d := hpos (l, d) (List.mem_cons_self _ _)
    have hrest : 0 ≤ (rest.map Prod.snd).sum := by
      apply List.sum_nonneg
      intro x hx
      obtain ⟨q, hq, rfl⟩ := List.mem_map.mp hx
      exact (hpos q (List.mem_cons_of_mem _ hq)).le
    simp only [List.map_cons, List.sum_cons]
    rcases List.mem_cons.mp hc with h | h
    · subst h
      refine ⟨le_refl _, ?_, ?_⟩
      · show current < current + d * scale
        nlinarith [mul_pos hd hs]
      · show current + d * scale ≤ current + (d + (rest.map Prod.snd).sum) * scale
        nlinarith [mul_nonneg hrest hs.le]
    · obtain ⟨h1, h2, h3⟩ := ih (current + d * scale)
        (fun r hr => hpos r (List.mem_cons_of_mem _ hr)) c h
      refine ⟨?_, h2, ?_⟩
      · nlinarith [mul_pos hd hs]
      · calc c.2.1 ≤ current + d * scale + (rest.map Prod.snd).sum * scale := h3
          _ = current + (d + (rest.map Prod.snd).sum) * scale := by ring

/-- A contiguous cue list satisfies the adjacency chain: every cue ends
where the next one starts. -/
theorem contiguousFrom_chain :
    ∀ (l : List (ℚ × ℚ × String)) (t : ℚ), contiguousFrom t l →
      List.Chain' (fun a b => a.2.1 = b.1) l := by
  intro l
  induction l with
  | nil => intro t _; simp
  | cons c rest ih =>
    intro t h
    obtain ⟨h1, h2⟩ := h
    cases rest with
    | nil => simp
    | cons d rs =>
      rw [List.chain'_cons]
      obtain ⟨hd1, hrest2⟩ := h2
      exact ⟨hd1.symm, ih _ ⟨hd1, hrest2⟩⟩

/-- For a non-empty line list the allocator is the allocation walk with
scale duration / raw_total, over the lines paired with their raw
durations. -/
theorem assign_timings_eq (lines : List String) (duration cps : ℚ)
    (hne : lines ≠ []) :
    assign_timings lines duration cps =
      assignLoop duration (duration / (lines.map (lineDuration cps)).sum) 0
        (lines.map (fun l => (l, lineDuration cps l))) := by
  have hS : 0 < (lines.map (lineDuration cps)).sum := by
    apply List.sum_pos
    · intro x hx
      obtain ⟨l, _, rfl⟩ := List.mem_map.mp hx
      exact lineDuration_pos cps l
    · simpa using hne
  simp only [assign_timings]
  rw [if_neg (by simpa [List.isEmpty_iff] using hne)]
  rw [if_pos hS, zip_self_map]

/-- The raw durations of the paired lines. -/
theorem pairs_map_snd (cps : ℚ) (lines : List String) :
    ((lines.map (fun l => (l, lineDuration cps l))).map Prod.snd) =
      lines.map (lineDuration cps) := by
  simp [List.map_map]

/-- For a non-empty line list and positive total duration the allocator
coincides with the reference walk: scaling makes every line fit, so nothing
is clamped or dropped. -/
theorem assign_timings_ideal (lines : List String) (duration cps : ℚ)
    (hne : lines ≠ []) (hdur : 0 < duration) :
    assign_timings lines duration cps =
      idealLoop (duration / (lines.map (lineDuration cps)).sum) 0
        (lines.map (fun l => (l, lineDuration cps l))) := by
  have hS : 0 < (lines.map (lineDuration cps)).sum := by
    apply List.sum_pos
    · intro x hx
      obtain ⟨l, _, rfl⟩ := List.mem_map.mp hx
      exact lineDuration_pos cps l
    · simpa using hne
  rw [assign_timings_eq lines duration cps hne]
  apply assignLoop_eq_idealLoop duration _ (div_pos hdur hS)
  · intro p hp
    obtain ⟨l, _, rfl⟩ := List.mem_map.mp hp
    exact lineDuration_pos cps l
  · rw [pairs_map_snd, zero_add, mul_comm, div_mul_cancel₀ duration hS.ne']

/-- Claim C1: for every non-empty line list, positive reading speed, and
total duration at least the sum over the lines of max 2 (length/cps), the
allocator returns exactly one cue per input line, the cues are contiguous
starting at 0, and the final cue ends exactly at the total duration. -/
theorem c1_coverage (lines : List String) (duration cps : ℚ)
    (hne : lines ≠ []) (hcps : 0 < cps)
    (hdur : (lines.map (lineDuration cps)).sum ≤ duration) :
    (assign_timings lines duration cps).length = lines.length ∧
    contiguousFrom 0 (assign_timings lines duration cps) ∧
    ((assign_timings lines duration cps).getLast?).map (fun c => c.2.1) =
      some duration := by
  have hS : 0 < (lines.map (lineDuration cps)).sum := by
    apply List.sum_pos
    · intro x hx
      obtain ⟨l, _, rfl⟩ := List.mem_map.mp hx
      exact lineDuration_pos cps l
    · simpa using hne
  have hd : 0 < duration := lt_of_lt_of_le hS hdur
  rw [assign_timings_ideal lines duration cps hne hd]
  refine ⟨?_, idealLoop_contiguousFrom _ _ _, ?_⟩
  · rw [idealLoop_length, List.length_map]
  · rw [idealLoop_getLast _ _ _ (by simpa using hne), pairs_map_snd, zero_add,
      mul_comm, div_mul_cancel₀ duration hS.ne']

/-- Witness for C1 at two lines of raw durations 2 and 2 with duration 10. -/
theorem c1_coverage_witness :
    (assign_timings ["hello", "ab"] 10 15).length = 2 ∧
    contiguousFrom 0 (assign_timings ["hello", "ab"] 10 15) ∧
    ((assign_timings ["hello", "ab"] 10 15).getLast?).map (fun c => c.2.1) =
      some 10 :=
  c1_coverage ["hello", "ab"] 10 15 (by decide) (by norm_num)
    (by with_unfolding_all decide)

/-- Claim C2 as stated is false at its own cited example: with
total_duration 1/2 and ten lines of raw duration 2 each (raw total 20,
strictly more than 1/2), the allocator does NOT return strictly fewer cues
than input lines - proportional scaling compresses all ten lines to fit,
and the last cue still ends at 1/2. -/
theorem c2_truncation_counterexample :
    (1 / 2 : ℚ) < ((tenShortLines.map (lineDuration 15)).sum) ∧
    ¬ ((assign_timings tenShortLines (1 / 2) 15).length < tenShortLines.length) ∧
    ((assign_timings tenShortLines (1 / 2) 15).getLast?).map (fun c => c.2.1) =
      some (1 / 2) := by
  refine ⟨?_, ?_, ?_⟩ <;> with_unfolding_all decide

/-- Claim C2 amended: for every non-empty line list, positive total
duration, and positive reading speed - in particular when the raw time
strictly exceeds the total duration - the allocator still returns exactly
one cue per input line (no line is dropped), and the last cue ends exactly
at the total duration.  Strictly fewer cues than lines can occur only for a
non-positive total duration. -/
theorem c2_no_truncation (lines : List String) (duration cps : ℚ)
    (hne : lines ≠ []) (hdur : 0 < duration) (hcps : 0 < cps) :
    (assign_timings lines duration cps).length = lines.length ∧
    ((assign_timings lines duration cps).getLast?).map (fun c => c.2.1) =
      some duration := by
  have hS : 0 < (lines.map (lineDuration cps)).sum := by
    apply List.sum_pos
    · intro x hx
      obtain ⟨l, _, rfl⟩ := List.mem_map.mp hx
      exact lineDuration_pos cps l
    · simpa using hne
  rw [assign_timings_ideal lines duration cps hne hdur]
  refine ⟨?_, ?_⟩
  · rw [idealLoop_length, List.length_map]
  · rw [idealLoop_getLast _ _ _ (by simpa using hne), pairs_map_snd, zero_add,
      mul_comm, div_mul_cancel₀ duration hS.ne']

/-- Witness for the amended C2 at the claim's own example: ten short lines,
duration 1/2, reading speed 15. -/
theorem c2_no_truncation_witness :
    (assign_timings tenShortLines (1 / 2) 15).length = tenShortLines.length ∧
    ((assign_timings tenShortLines (1 / 2) 15).getLast?).map (fun c => c.2.1) =
      some (1 / 2) :=
  c2_no_truncation tenShortLines (1 / 2) 15 (by decide) (by norm_num) (by norm_num)

/-- Claim C3 as stated is false: it quantifies over every total_duration,
but at total_duration 0 the single produced cue is (0, 0, "a"), whose start
is not strictly below its end. -/
theorem c3_monotonicity_counterexample :
    ¬ (∀ c ∈ assign_timings ["a"] 0 15, c.1 < c.2.1) := by
  with_unfolding_all decide

/-- Claim C3 amended: for every line list and reading speed, and every
POSITIVE total duration, each produced cue starts strictly before it ends,
each cue ends no later than the total duration, and each cue ends exactly
where the next one starts. -/
theorem c3_monotonicity (lines : List String) (duration cps : ℚ)
    (hdur : 0 < duration) :
    (∀ c ∈ assign_timings lines duration cps, c.1 < c.2.1 ∧ c.2.1 ≤ duration) ∧
    List.Chain' (fun a b => a.2.1 = b.1) (assign_timings lines duration cps) := by
  cases lines with
  | nil => simp [assign_timings]
  | cons x xs =>
    have hne : (x :: xs : List String) ≠ [] := by simp
    have hS : 0 < (((x :: xs) : List String).map (lineDuration cps)).sum := by
      apply List.sum_pos
      · intro y hy
        obtain ⟨l, _, rfl⟩ := List.mem_map.mp hy
        exact lineDuration_pos cps l
      · simpa using hne
    have hscale : 0 < duration / (((x :: xs) : List String).map (lineDuration cps)).sum :=
      div_pos hdur hS
    rw [assign_timings_ideal _ duration cps hne hdur]
    constructor
    · intro c hc
      have hmem := idealLoop_mem _ hscale _ 0
        (by
          intro p hp
          obtain ⟨l, _, rfl⟩ := List.mem_map.mp hp
          exact lineDuration_pos cps l) c hc
      refine ⟨hmem.2.1, ?_⟩
      have h3 := hmem.2.2
      rw [pairs_map_snd, zero_add, mul_comm, div_mul_cancel₀ duration hS.ne'] at h3
      exact h3
    · exact contiguousFrom_chain _ 0 (idealLoop_contiguousFrom _ _ _)

/-- Witness for the amended C3 at two lines with duration 4. -/
theorem c3_monotonicity_witness :
    (∀ c ∈ assign_timings ["ab", "cd"] 4 15, c.1 < c.2.1 ∧ c.2.1 ≤ 4) ∧
    List.Chain' (fun a b => a.2.1 = b.1) (assign_timings ["ab", "cd"] 4 15) :=
  c3_monotonicity ["ab", "cd"] 4 15 (by norm_num)

/-- The texts of the cues produced by the clamped walk form an initial
segment of the walked lines, whatever the duration and scale. -/
theorem assignLoop_texts (duration scale : ℚ) :
    ∀ (pairs : List (String × ℚ)) (current : ℚ),
      ∃ rest, (assignLoop duration scale current pairs).map (fun c => c.2.2) ++ rest =
        pairs.map Prod.fst := by
  intro pairs
  induction pairs with
  | nil => intro current; exact ⟨[], rfl⟩
  | cons p rest ih =>
    intro current
    obtain ⟨line, d⟩ := p
    simp only [assignLoop]
    by_cases h : (if current + d * scale > duration then duration
        else current + d * scale) ≥ duration
    · rw [if_pos h]
      exact ⟨rest.map Prod.fst, by simp⟩
    · rw [if_neg h]
      obtain ⟨r, hr⟩ := ih (if current + d * scale > duration then duration
        else current + d * scale)
      exact ⟨r, by simp [hr]⟩

/-- Claim C10: for every line list, total duration, and reading speed, the
texts of the returned cues are an initial segment of the input lines: same
strings, same order, never more cues than lines. -/
theorem c10_texts_unchanged (lines : List String) (duration cps : ℚ) :
    ∃ rest, (assign_timings lines duration cps).map (fun c => c.2.2) ++ rest =
      lines := by
  cases lines with
  | nil => exact ⟨[], by simp [assign_timings]⟩
  | cons x xs =>
    rw [assign_timings_eq _ duration cps (by simp)]
    obtain ⟨r, hr⟩ := assignLoop_texts duration
      (duration / (((x :: xs) : List String).map (lineDuration cps)).sum)
      (((x :: xs) : List String).map (fun l => (l, lineDuration cps l))) 0
    refine ⟨r, ?_⟩
    rw [hr, List.map_map]
    show List.map id (x :: xs) = x :: xs
    exact List.map_id _

/-- Key floor identity: subtracting m * floor(x/m) and flooring is the same
as taking the floor first and reducing modulo m (Euclidean remainder). -/
theorem floor_sub_mul_floor_div (x : ℚ) (m : ℤ) (hm : 0 < m) :
    ⌊x - (m : ℚ) * ⌊x / (m : ℚ)⌋⌋ = ⌊x⌋ % m := by
  have hm' : (0 : ℚ) < (m : ℚ) := by exact_mod_cast hm
  have h1 : m * ⌊x / (m : ℚ)⌋ ≤ ⌊x⌋ := by
    rw [Int.le_floor]
    push_cast
    calc (m : ℚ) * ⌊x / (m : ℚ)⌋ ≤ (m : ℚ) * (x / m) :=
          mul_le_mul_of_nonneg_left (Int.floor_le _) hm'.le
      _ = x := by field_simp
  have h2 : ⌊x⌋ < m * ⌊x / (m : ℚ)⌋ + m := by
    rw [Int.floor_lt]
    push_cast
    have hlt : x / (m : ℚ) < ⌊x / (m : ℚ)⌋ + 1 := Int.lt_floor_add_one _
    have hx : x = (m : ℚ) * (x / m) := by field_simp
    nlinarith
  have key : x - (m : ℚ) * ⌊x / (m : ℚ)⌋ = x - ((m * ⌊x / (m : ℚ)⌋ : ℤ) : ℚ) := by
    push_cast
    ring
  rw [key, Int.floor_sub_int]
  have h3 : (⌊x⌋ - m * ⌊x / (m : ℚ)⌋) % m = ⌊x⌋ % m := by
    conv_rhs => rw [show ⌊x⌋ = ⌊x⌋ - m * ⌊x / (m : ℚ)⌋ + m * ⌊x / (m : ℚ)⌋ by ring]
    rw [Int.add_mul_emod_self_left]
  rw [← h3, Int.emod_eq_of_lt (by omega) (by omega)]

/-- The minutes component: floor of (s mod 3600)/60 is floor(s/60) mod 60. -/
theorem minutes_component (s : ℚ) : ⌊pymod s 3600 / 60⌋ = ⌊s / 60⌋ % 60 := by
  have h3600 : ⌊s / 3600⌋ = ⌊s / 60 / 60⌋ := by
    rw [div_div]
    norm_num
  have e1 : pymod s 3600 / 60 = s / 60 - (60 : ℚ) * ⌊s / 60 / (60 : ℚ)⌋ := by
    unfold pymod
    rw [h3600]
    ring
  rw [e1]
  have := floor_sub_mul_floor_div (s / 60) 60 (by norm_num)
  simpa using this

/-- The seconds component: floor of s mod 60 is floor(s) mod 60. -/
theorem seconds_component (s : ℚ) : ⌊pymod s 60⌋ = ⌊s⌋ % 60 := by
  have e1 : pymod s 60 = s - (60 : ℚ) * ⌊s / (60 : ℚ)⌋ := rfl
  rw [e1]
  have := floor_sub_mul_floor_div s 60 (by norm_num)
  simpa using this

/-- The fractional component scaled by m: floor((s mod 1) * m) is
floor(s*m) mod m. -/
theorem frac_component (s : ℚ) (m : ℤ) (hm : 0 < m) :
    ⌊pymod s 1 * (m : ℚ)⌋ = ⌊s * m⌋ % m := by
  have hm' : (0 : ℚ) < (m : ℚ) := by exact_mod_cast hm
  have hfloor : ⌊s⌋ = ⌊s * (m : ℚ) / (m : ℚ)⌋ := by
    rw [mul_div_assoc, div_self hm'.ne', mul_one]
  have e1 : pymod s 1 * (m : ℚ) = s * m - (m : ℚ) * ⌊s * (m : ℚ) / (m : ℚ)⌋ := by
    unfold pymod
    rw [← hfloor, div_one]
    ring
  rw [e1]
  exact floor_sub_mul_floor_div (s * m) m hm

/-- The source sequential timestamp formatter agrees with the
floor-components description for every time value. -/
theorem format_time_eq_spec (s : ℚ) : format_time s = format_time_spec s := by
  unfold format_time format_time_spec
  rw [minutes_component, seconds_component]
  rw [show ⌊pymod s 1 * 1000⌋ = ⌊s * 1000⌋ % 1000 by
    have := frac_component s 1000 (by norm_num)
    simpa using this]

/-- The source styled timestamp formatter agrees with the floor-components
description for every time value. -/
theorem format_time_ass_eq_spec (s : ℚ) : format_time_ass s = format_time_ass_spec s := by
  unfold format_time_ass format_time_ass_spec
  rw [minutes_component, seconds_component]
  rw [show ⌊pymod s 1 * 100⌋ = ⌊s * 100⌋ % 100 by
    have := frac_component s 100 (by norm_num)
    simpa using this]

/-- The two filters of the segmenter, with the strip applied in between,
fuse into the specification's single pass: keep a raw line exactly when its
stripped form is non-empty and not a section marker, then return the
stripped forms. -/
theorem segment_filter_fuse :
    ∀ xs : List String,
      ((xs.filter (fun l => !(strip l == ""))).map strip).filter
          (fun l => !(isSectionMarker l)) =
        (xs.filter (fun l => !(strip l == "") && !(isSectionMarker (strip l)))).map
          strip := by
  intro xs
  induction xs with
  | nil => rfl
  | cons x rest ih =>
    by_cases hb : strip x == ""
    · simp [List.filter_cons, hb, ih]
    · by_cases hm : isSectionMarker (strip x)
      · simp [List.filter_cons, hb, hm, ih]
      · simp [List.filter_cons, hb, hm, ih]

/-- Claim C4: the segmenter splits on line breaks, drops lines empty after
trimming and lines whose trimmed form is exactly a bracketed marker, and
returns the survivors trimmed, in original order; in particular the sample
lyric sheet segments to exactly its two content lines. -/
theorem c4_segmenter :
    (∀ lyrics : String, split_lyrics lyrics = segment_spec lyrics) ∧
    split_lyrics "[Intro]\nhello\n\n[Verse 1]\nworld  \n" = ["hello", "world"] := by
  constructor
  · intro lyrics
    unfold split_lyrics segment_spec
    exact segment_filter_fuse _
  · with_unfolding_all decide

/-- Claim C5: the sequential emitter writes one four-line record per cue -
1-based index, start --> end with HH:MM:SS,mmm floor-component timestamps,
text, blank line - hours uncapped; in particular the three P5 cues emit
exactly the twelve-line document, and 25 hours renders as 25, not 1. -/
theorem c5_sequential_emitter :
    (∀ seconds : ℚ, 0 ≤ seconds → format_time seconds = format_time_spec seconds) ∧
    write_srt [(0, 2, "a"), (2, 11 / 2, "b"), (11 / 2, 10, "c")] =
      "1\n00:00:00,000 --> 00:00:02,000\na\n\n2\n00:00:02,000 --> 00:00:05,500\nb\n\n3\n00:00:05,500 --> 00:00:10,000\nc\n\n" ∧
    format_time 90000 = "25:00:00,000" := by
  refine ⟨fun s _ => format_time_eq_spec s, ?_, ?_⟩
  · with_unfolding_all decide
  · with_unfolding_all decide

/-- Witness for C5's universal component at the nonnegative time 11/2. -/
theorem c5_sequential_emitter_witness :
    format_time (11 / 2) = format_time_spec (11 / 2) :=
  c5_sequential_emitter.1 (11 / 2) (by norm_num)

/-- Claim C6: the styled timestamp is H:MM:SS.cc with the hour unpadded,
minutes and seconds 2-digit zero-padded, and a truncated 2-digit centisecond
remainder; in particular 0, 2, 5.5 and 10 seconds render as stated. -/
theorem c6_styled_timestamps :
    (∀ seconds : ℚ, 0 ≤ seconds →
      format_time_ass seconds = format_time_ass_spec seconds) ∧
    format_time_ass 0 = "0:00:00.00" ∧
    format_time_ass 2 = "0:00:02.00" ∧
    format_time_ass (11 / 2) = "0:00:05.50" ∧
    format_time_ass 10 = "0:00:10.00" := by
  refine ⟨fun s _ => format_time_ass_eq_spec s, ?_, ?_, ?_, ?_⟩ <;>
    with_unfolding_all decide

/-- Witness for C6's universal component at the nonnegative time 11/2. -/
theorem c6_styled_timestamps_witness :
    format_time_ass (11 / 2) = format_time_ass_spec (11 / 2) :=
  c6_styled_timestamps.1 (11 / 2) (by norm_num)

/-- Claim C7: every Dialogue row carries the cue text prefixed, with no
separator, by the fade directive whose two fields are the style's fade-in
and fade-out seconds times 1000, truncated to integers; in particular fades
of 0.4 seconds give the directive with 400 and 400. -/
theorem c7_fade_directive :
    (∀ (fade_in fade_out : ℚ) (cue : ℚ × ℚ × String),
      dialogue_line fade_in fade_out cue =
        "Dialogue: 0," ++ format_time_ass cue.1 ++ "," ++ format_time_ass cue.2.1 ++
          ",Default,,0,0,0,," ++
          ("\x7b\\fad(" ++ toString (pytrunc (fade_in * 1000)) ++ "," ++
            toString (pytrunc (fade_out * 1000)) ++ ")\x7d" ++ cue.2.2) ++ "\n") ∧
    dialogue_line (2 / 5) (2 / 5) (0, 2, "b") =
      "Dialogue: 0,0:00:00.00,0:00:02.00,Default,,0,0,0,,\x7b\\fad(400,400)\x7db\n" := by
  constructor
  · intro fade_in fade_out cue
    unfold dialogue_line
    simp only [String.append_assoc]
  · with_unfolding_all decide

/-- Claim C8: whatever the other style settings, the single style row is the
same string on either side of the bold field - the fixed fields
italic/underline/strikeout 0, scale 100/100, spacing and rotation 0, border
style 1, and left/right margins 20 are untouched - and the bold field
itself serializes as -1 when the flag is set and as 0 when it is not. -/
theorem c8_bold_flag :
    ∀ (font_name : String) (font_size : ℤ)
      (primary_color secondary_color outline_color back_color : String)
      (outline shadow : ℚ) (alignment margin_v : ℤ),
      style_row font_name font_size primary_color secondary_color outline_color
          back_color outline shadow true alignment margin_v =
        ("Style: Default," ++ font_name ++ "," ++ toString font_size ++ "," ++
            primary_color ++ "," ++ secondary_color ++ "," ++ outline_color ++
            "," ++ back_color ++ ",") ++ "-1" ++
          (",0,0,0,100,100,0,0,1," ++ pyFloatStr outline ++ "," ++
            pyFloatStr shadow ++ "," ++ toString alignment ++ ",20,20," ++
            toString margin_v ++ ",1\n") ∧
      style_row font_name font_size primary_color secondary_color outline_color
          back_color outline shadow false alignment margin_v =
        ("Style: Default," ++ font_name ++ "," ++ toString font_size ++ "," ++
            primary_color ++ "," ++ secondary_color ++ "," ++ outline_color ++
            "," ++ back_color ++ ",") ++ "0" ++
          (",0,0,0,100,100,0,0,1," ++ pyFloatStr outline ++ "," ++
            pyFloatStr shadow ++ "," ++ toString alignment ++ ",20,20," ++
            toString margin_v ++ ",1\n") := by
  intro font_name font_size primary_color secondary_color outline_color
    back_color outline shadow alignment margin_v
  constructor
  · unfold style_row
    simp only [if_true, String.append_assoc]
    rw [show toString (-1 : ℤ) = "-1" by with_unfolding_all decide]
  · unfold style_row
    rw [show (if (false = true) then (-1 : ℤ) else 0) = 0 from rfl]
    simp only [String.append_assoc]
    rw [show toString (0 : ℤ) = "0" by with_unfolding_all decide]

/-- Claim C9: when every split line of the lyric text strips to the empty
string (so for the empty or any whitespace-only input), the segmenter
returns no lines, the allocator returns no cues, the sequential emitter
produces the empty document, and the styled emitter produces exactly the
three section headers with their Format lines and no Dialogue rows. -/
theorem c9_empty_input (lyrics : String) (duration cps : ℚ) (font_name : String)
    (font_size : ℤ) (primary_color secondary_color outline_color back_color : String)
    (outline shadow : ℚ) (bold : Bool) (alignment margin_v : ℤ)
    (fade_in fade_out : ℚ)
    (h : ((lyrics.data.splitOn '\n').map String.mk).all
      (fun l => strip l == "") = true) :
    split_lyrics lyrics = [] ∧
    assign_timings (split_lyrics lyrics) duration cps = [] ∧
    write_srt (assign_timings (split_lyrics lyrics) duration cps) = "" ∧
    write_ass (assign_timings (split_lyrics lyrics) duration cps) font_name
        font_size primary_color secondary_color outline_color back_color outline
        shadow bold alignment margin_v fade_in fade_out =
      ass_script_info ++ ass_style_format ++
        style_row font_name font_size primary_color secondary_color outline_color
          back_color outline shadow bold alignment margin_v ++ "\n" ++
        ass_events_header := by
  have h0 : split_lyrics lyrics = [] := by
    unfold split_lyrics
    have hf : ((lyrics.data.splitOn '\n').map String.mk).filter
        (fun l => !(strip l == "")) = [] := by
      rw [List.filter_eq_nil]
      intro a ha
      have := List.all_eq_true.mp h a ha
      simp [this]
    rw [hf]
    rfl
  rw [h0]
  refine ⟨rfl, rfl, rfl, ?_⟩
  show write_ass [] font_name font_size primary_color secondary_color
    outline_color back_color outline shadow bold alignment margin_v fade_in
    fade_out = _
  unfold write_ass
  rw [show String.join (([] : List (ℚ × ℚ × String)).map
    (dialogue_line fade_in fade_out)) = "" from rfl, String.append_empty]

/-- Witness for C9 at a whitespace-only lyric text. -/
theorem c9_empty_input_witness :
    split_lyrics " \n\t " = [] ∧
    assign_timings (split_lyrics " \n\t ") 70 15 = [] ∧
    write_srt (assign_timings (split_lyrics " \n\t ") 70 15) = "" ∧
    write_ass (assign_timings (split_lyrics " \n\t ") 70 15) "Arial" 52 "&H00FFFFFF"
        "&H00FF00FF" "&H00000000" "&H80000000" 3 2 true 2 40 (3 / 10) (3 / 10) =
      ass_script_info ++ ass_style_format ++
        style_row "Arial" 52 "&H00FFFFFF" "&H00FF00FF" "&H00000000" "&H80000000"
          3 2 true 2 40 ++ "\n" ++ ass_events_header :=
  c9_empty_input " \n\t " 70 15 "Arial" 52 "&H00FFFFFF" "&H00FF00FF" "&H00000000"
    "&H80000000" 3 2 true 2 40 (3 / 10) (3 / 10) (by with_unfolding_all decide)
